import Mathlib

/-!
Verification development for the arabic-reader web application.

The TypeScript sources are shallowly embedded here: JavaScript strings are
modelled as lists of characters, JSON values as an inductive type, fallible
steps as Option or explicit outcome constructors, and the stateful request
handlers as pure functions from their external inputs (admin check outcome,
parsed form fields, configuration, external API outcome) to an effect trace
plus an HTTP response value.  Platform primitives whose outcome the code
merely branches on (JSON.parse, parseInt, the database lookups and the
external model API) are supplied as inputs describing their outcome, and the
branching logic of the handlers is translated faithfully from the source.
-/

namespace ArabicReader

/-- isJsWhitespace models the character class removed by the JavaScript
String.prototype.trim: ASCII whitespace, line terminators, NBSP and the BOM,
plus the Unicode space separators used in practice. -/
def isJsWhitespace (c : Char) : Bool :=
  c = ' ' || c = '\t' || c = '\n' || c = '\r' ||
  c = Char.ofNat 11 || c = Char.ofNat 12 || c = Char.ofNat 160 ||
  c = Char.ofNat 0x2028 || c = Char.ofNat 0x2029 || c = Char.ofNat 0xFEFF ||
  (0x2000 ≤ c.toNat && c.toNat ≤ 0x200A) || c = Char.ofNat 0x1680 ||
  c = Char.ofNat 0x202F || c = Char.ofNat 0x205F || c = Char.ofNat 0x3000

/-- jsTrim models String.prototype.trim on a JavaScript string: drop leading
whitespace, then drop trailing whitespace. -/
def jsTrim (s : List Char) : List Char :=
  List.rdropWhile isJsWhitespace (List.dropWhile isJsWhitespace s)

/-- jsToLowerCase models String.prototype.toLowerCase, character by
character. -/
def jsToLowerCase (s : List Char) : List Char :=
  s.map Char.toLower

/-- jsOrStr models the JavaScript expression a or-else b for a string b and
an optional string a: undefined and the empty string are falsy, every other
string is truthy. -/
def jsOrStr (a : Option (List Char)) (b : List Char) : List Char :=
  match a with
  | none => b
  | some s => if s = [] then b else s

/-- jsTruthyStrOpt models the truthiness test on a nullable JavaScript
string: null and the empty string are falsy. -/
def jsTruthyStrOpt : Option (List Char) → Bool
  | none => false
  | some s => decide (s ≠ [])

/-- Json models the JavaScript values that JSON.parse can produce, plus the
distinction between a present and an absent object field (absence is
represented by Option none at use sites).  Numbers are restricted to the
integers, which covers every value the extraction routes compare or
stringify. -/
inductive Json where
  | str (s : List Char)
  | num (n : Int)
  | bool (b : Bool)
  | null
  | arr (elems : List Json)
  | obj (fields : List ((List Char) × Json))

/-- Json.getField models property access on a parsed JSON value: on null it
throws a TypeError (the error result), on an object it returns the first
field with the given name or undefined, and on every other value it returns
undefined (none), since JavaScript primitives expose no such property. -/
def Json.getField : Json → List Char → Except Unit (Option Json)
  | .null, _ => .error ()
  | .obj fields, k =>
    .ok ((fields.find? (fun f => f.1 = k)).map (fun f => f.2))
  | _, _ => .ok none

/-- Decidable equality for exception results over a unit error type. -/
instance {α : Type} [DecidableEq α] : DecidableEq (Except Unit α) :=
  fun a b =>
  match a, b with
  | .error (), .error () => isTrue rfl
  | .ok x, .ok y =>
    if h : x = y then isTrue (by rw [h])
    else isFalse (fun hc => h (by injection hc))
  | .error (), .ok _ => isFalse (fun hc => Except.noConfusion hc)
  | .ok _, .error () => isFalse (fun hc => Except.noConfusion hc)

/-- jsTruthy models the JavaScript truthiness of a possibly-undefined JSON
value: undefined, null, the empty string, zero and false are falsy. -/
def jsTruthy : Option Json → Bool
  | none => false
  | some (.str s) => decide (s ≠ [])
  | some (.num n) => decide (n ≠ 0)
  | some (.bool b) => b
  | some .null => false
  | some (.arr _) => true
  | some (.obj _) => true

mutual

/-- jsToStr models the JavaScript String() coercion on a JSON value: strings
pass through, numbers and booleans print, null prints as the word null, an
array prints as its elements joined by commas, an object prints as the
standard object placeholder. -/
def jsToStr : Json → List Char
  | .str s => s
  | .num n => (toString n).toList
  | .bool true => ( "true").toList
  | .bool false => ( "false").toList
  | .null => ( "null").toList
  | .arr xs => jsJoin xs
  | .obj _ => ( "[object Object]").toList

/-- jsJoin models Array.prototype.join with a comma separator, as used by
the String() coercion of an array. -/
def jsJoin : List Json → List Char
  | [] => []
  | [x] => jsElemStr x
  | x :: y :: xs => jsElemStr x ++ ',' :: jsJoin (y :: xs)

/-- jsElemStr models the stringification of one array element inside join:
null becomes the empty string, every other value stringifies as usual. -/
def jsElemStr : Json → List Char
  | .str s => s
  | .num n => (toString n).toList
  | .bool true => ( "true").toList
  | .bool false => ( "false").toList
  | .null => []
  | .arr xs => jsJoin xs
  | .obj _ => ( "[object Object]").toList

end

/-- jsStringOf models String(x) where x may be undefined. -/
def jsStringOf : Option Json → List Char
  | none => ( "undefined").toList
  | some j => jsToStr j

/-! Flashcard component (src/src/components/VocabularyFlashcards.tsx). -/

/-- VocabularyWord mirrors the fields of the vocabulary word rows that the
flashcard component consumes. -/
structure VocabularyWord where
  id : Int
  arabic : List Char
  english : List Char
deriving DecidableEq

/-- generateMultipleChoiceOptions translates the helper of the same name:
collect the english fields of all other words as distractors, shuffle them,
take three, prepend the correct answer and shuffle again.  The two calls to
Array.prototype.sort with a random comparator are modelled by the two
function parameters; the theorems assume only that each permutes its
input. -/
def generateMultipleChoiceOptions
    (shuffleA shuffleB : List (List Char) → List (List Char))
    (correctAnswer : List Char) (allWords : List VocabularyWord)
    (currentWordId : Int) : List (List Char) :=
  let distractors :=
    (allWords.filter (fun word => decide (word.id ≠ currentWordId))).map
      (fun word => word.english)
  let shuffled := shuffleA distractors
  let selectedDistractors := shuffled.take 3
  let options := correctAnswer :: selectedDistractors
  shuffleB options

/-- effectiveAnswer translates the answer lookup in handleTestSubmit: the
stored answer for the word id, trimmed, with the empty string as the
fallback for an unanswered word. -/
def effectiveAnswer (testAnswers : Int → Option (List Char)) (wordId : Int) :
    List Char :=
  jsOrStr ((testAnswers wordId).map jsTrim) []

/-- recordSet models assignment to a numeric key of a JavaScript object
record: overwrite the existing entry if the key is present, append
otherwise. -/
def recordSet (m : List (Int × Bool)) (key : Int) (v : Bool) :
    List (Int × Bool) :=
  if m.any (fun kv => kv.1 = key) then
    m.map (fun kv => if kv.1 = key then (key, v) else kv)
  else m ++ [(key, v)]

/-- recordGet models reading a numeric key of a JavaScript object record. -/
def recordGet (m : List (Int × Bool)) (key : Int) : Option Bool :=
  (m.find? (fun kv => kv.1 = key)).map (fun kv => kv.2)

/-- handleTestSubmit translates the submit handler of test mode: for each
word, in order, store under its id whether the trimmed stored answer (empty
when unanswered) is strictly equal to the english field of the word. -/
def handleTestSubmit (words : List VocabularyWord)
    (testAnswers : Int → Option (List Char)) : List (Int × Bool) :=
  words.foldl
    (fun results word =>
      recordSet results word.id
        (decide (effectiveAnswer testAnswers word.id = word.english)))
    []

/-- correctCount translates the score computation: the number of true values
in the test results record. -/
def correctCount (results : List (Int × Bool)) : Nat :=
  (results.filter (fun kv => kv.2)).length

/-- handleNext translates the next-card handler: increment the index only
while it is below the last position. -/
def handleNext (wordsLength currentIndex : Nat) : Nat :=
  if currentIndex < wordsLength - 1 then currentIndex + 1 else currentIndex

/-- handlePrevious translates the previous-card handler: decrement the index
only while it is positive. -/
def handlePrevious (currentIndex : Nat) : Nat :=
  if 0 < currentIndex then currentIndex - 1 else currentIndex

/-- handleTestReset translates the reset handler, which sets the index back
to zero. -/
def handleTestReset : Nat := 0

/-- FlashcardAction enumerates the operations of the flashcard component
that change the current index. -/
inductive FlashcardAction where
  | next
  | previous
  | testReset
deriving DecidableEq

/-- stepCurrentIndex applies one flashcard action to the current index. -/
def stepCurrentIndex (wordsLength currentIndex : Nat) :
    FlashcardAction → Nat
  | .next => handleNext wordsLength currentIndex
  | .previous => handlePrevious currentIndex
  | .testReset => handleTestReset

/-! Conversation playback (src/src/app/units/[id]/page.tsx). -/

/-- Language enumerates the two playback languages of the conversation
display. -/
inductive Language where
  | arabic
  | english
deriving DecidableEq

/-- ConversationSentence mirrors the sentence rows consumed by the
conversation display; the english translation is optional. -/
structure ConversationSentence where
  id : Int
  arabic : List Char
  english : Option (List Char)
  order : Int
deriving DecidableEq

/-- sentenceHasText translates the playability filter of handlePlayAll: the
text in the selected language must be truthy and have positive length after
trimming. -/
def sentenceHasText (selectedLanguage : Language)
    (s : ConversationSentence) : Bool :=
  match selectedLanguage with
  | .arabic => decide (s.arabic ≠ []) && decide (0 < (jsTrim s.arabic).length)
  | .english =>
    match s.english with
    | none => false
    | some e => decide (e ≠ []) && decide (0 < (jsTrim e).length)

/-- textIn gives the text spoken for a sentence in the selected language,
with the empty string standing in for a missing english translation, as in
playSentenceSequentially. -/
def textIn (selectedLanguage : Language) (s : ConversationSentence) :
    List Char :=
  match selectedLanguage with
  | .arabic => s.arabic
  | .english => jsOrStr s.english []

/-- sortedSentences translates the sort by ascending order field that
handlePlayAll starts from (a stable comparator sort in the source). -/
def sortedSentences (sentences : List ConversationSentence) :
    List ConversationSentence :=
  sentences.mergeSort (fun a b => decide (a.order ≤ b.order))

/-- playSentenceSequentially translates the recursive playback driver: speak
the sentence at the current position of the playable list, then continue at
the next position; stop once the position passes the end.  Its value is the
sequence of sentences spoken, in speaking order. -/
def playSentenceSequentially (playableSentences : List ConversationSentence)
    (index : Nat) : List ConversationSentence :=
  if h : index < playableSentences.length then
    playableSentences.get ⟨index, h⟩ ::
      playSentenceSequentially playableSentences (index + 1)
  else []
termination_by playableSentences.length - index

/-- handlePlayAll translates the play-all entry point on the path where no
playback is in progress: sort the sentences, keep the playable ones, return
without speaking when none are playable, otherwise start the sequential
driver at position zero.  Its value is the sequence of sentences spoken. -/
def handlePlayAll (sentences : List ConversationSentence)
    (selectedLanguage : Language) : List ConversationSentence :=
  let playableSentences :=
    (sortedSentences sentences).filter (sentenceHasText selectedLanguage)
  if playableSentences.length = 0 then []
  else playSentenceSequentially playableSentences 0

/-! Image extraction routes (src/unnamed/part_000 for vocabulary,
src/unnamed/part_001 for conversation). -/

/-- WordPair mirrors the arabic and english pair handled by the vocabulary
extraction route. -/
structure WordPair where
  arabic : List Char
  english : List Char
deriving DecidableEq

/-- SentenceEntry mirrors the sentence entries handled by the conversation
extraction route; the english translation is optional. -/
structure SentenceEntry where
  arabic : List Char
  english : Option (List Char)
deriving DecidableEq

/-- UploadedFile carries the two facts about the uploaded image that the
routes use: its MIME type and the base64 rendering of its bytes. -/
structure UploadedFile where
  mime : List Char
  base64Data : List Char
deriving DecidableEq

/-- OpenRouterConfig mirrors the configuration record returned by
getOpenRouterConfig. -/
structure OpenRouterConfig where
  apiKey : List Char
  supportedModels : List (List Char)
deriving DecidableEq

/-- ContentPart mirrors one entry of the content array of the outgoing chat
message: either a text block or an image URL block. -/
inductive ContentPart where
  | textPart (text : List Char)
  | imagePart (url : List Char)
deriving DecidableEq

/-- ChatMessage mirrors one message of the outgoing chat request. -/
structure ChatMessage where
  role : List Char
  content : List ContentPart
deriving DecidableEq

/-- ChatRequest mirrors the JSON body sent to the external completions
endpoint. -/
structure ChatRequest where
  model : List Char
  messages : List ChatMessage
  temperature : Int
deriving DecidableEq

/-- dataUrl builds the base64 data URL embedded in the outgoing message,
exactly as the template literal in the source does. -/
def dataUrl (mime base64Data : List Char) : List Char :=
  ( "data:").toList ++ mime ++ ( ";base64,").toList ++ base64Data

/-- buildMessages translates the messages array construction: a single user
message whose content is the prompt text followed by the image URL block. -/
def buildMessages (promptText url : List Char) : List ChatMessage :=
  [ { role := ( "user").toList,
      content := [ ContentPart.textPart promptText,
                   ContentPart.imagePart url ] } ]

/-- visionModels lists the built-in vision model identifiers, in the order
of the source. -/
def visionModels : List (List Char) :=
  [ ( "openai/gpt-4o").toList,
    ( "openai/gpt-4o-mini").toList,
    ( "anthropic/claude-3.5-sonnet").toList,
    ( "anthropic/claude-3-opus").toList,
    ( "google/gemini-pro-vision").toList ]

/-- chooseModelFallback translates the else-if branch of the model choice:
when the supported model list is non-empty, take the first built-in vision
model it contains, otherwise keep the default. -/
def chooseModelFallback (config : OpenRouterConfig) (dflt : List Char) :
    List Char :=
  if 0 < config.supportedModels.length then
    match visionModels.find? (fun m => config.supportedModels.contains m) with
    | some m => m
    | none => dflt
  else dflt

/-- chooseModel translates the model choice: the selected model when it is a
truthy string contained in the supported list, otherwise the fallback
search, defaulting to the first built-in vision model. -/
def chooseModel (selectedModel : Option (List Char))
    (config : OpenRouterConfig) : List Char :=
  let dflt := visionModels.headD []
  match selectedModel with
  | some sm =>
    if decide (sm ≠ []) && config.supportedModels.contains sm then sm
    else chooseModelFallback config dflt
  | none => chooseModelFallback config dflt

/-- promptText translates the prompt choice: the trimmed custom prompt when
that trim is truthy, otherwise the base prompt. -/
def promptText (customPrompt : Option (List Char)) (basePrompt : List Char) :
    List Char :=
  jsOrStr (customPrompt.map jsTrim) basePrompt

/-- arabicField names the arabic JSON field. -/
def arabicField : List Char := ( "arabic").toList

/-- englishField names the english JSON field. -/
def englishField : List Char := ( "english").toList

/-- jsFilterE models Array.prototype.filter with a callback that may throw:
elements are visited in order and the first throw aborts the whole
filter. -/
def jsFilterE (p : Json → Except Unit Bool) :
    List Json → Except Unit (List Json)
  | [] => .ok []
  | j :: rest =>
    match p j with
    | .error e => .error e
    | .ok b =>
      match jsFilterE p rest with
      | .error e => .error e
      | .ok tail => .ok (if b then j :: tail else tail)

/-- jsMapE models Array.prototype.map with a callback that may throw. -/
def jsMapE {α : Type} (f : Json → Except Unit α) :
    List Json → Except Unit (List α)
  | [] => .ok []
  | j :: rest =>
    match f j with
    | .error e => .error e
    | .ok a =>
      match jsMapE f rest with
      | .error e => .error e
      | .ok tail => .ok (a :: tail)

/-- vocabPairTest translates the filter callback of the vocabulary route:
the truthiness of the arabic and english fields of the element, throwing
when the element is null. -/
def vocabPairTest (pair : Json) : Except Unit Bool :=
  match pair.getField arabicField, pair.getField englishField with
  | .ok a, .ok e => .ok (jsTruthy a && jsTruthy e)
  | _, _ => .error ()

/-- toWordPair translates the map callback of the vocabulary route: coerce
both fields to trimmed strings. -/
def toWordPair (pair : Json) : Except Unit WordPair :=
  match pair.getField arabicField, pair.getField englishField with
  | .ok a, .ok e =>
    .ok { arabic := jsTrim (jsStringOf a), english := jsTrim (jsStringOf e) }
  | _, _ => .error ()

/-- validateWordPairs translates the validation pipeline of the vocabulary
route: keep elements whose arabic and english fields are truthy, coerce
both fields to trimmed strings, then keep pairs whose fields have positive
length.  A null array element makes the filter callback throw, which the
enclosing try block turns into the parse-failure response. -/
def validateWordPairs (elems : List Json) : Except Unit (List WordPair) :=
  match jsFilterE vocabPairTest elems with
  | .error _ => .error ()
  | .ok kept =>
    match jsMapE toWordPair kept with
    | .error _ => .error ()
    | .ok pairs =>
      .ok (pairs.filter
        (fun pair =>
          decide (0 < pair.arabic.length) &&
          decide (0 < pair.english.length)))

/-- convSentenceTest translates the filter callback of the conversation
route: the truthiness of the arabic field of the element, throwing when the
element is null. -/
def convSentenceTest (s : Json) : Except Unit Bool :=
  match s.getField arabicField with
  | .ok a => .ok (jsTruthy a)
  | .error _ => .error ()

/-- toSentenceEntry translates the map callback of the conversation route:
coerce the arabic field to a trimmed string and the english field to an
optional trimmed string. -/
def toSentenceEntry (s : Json) : Except Unit SentenceEntry :=
  match s.getField arabicField, s.getField englishField with
  | .ok a, .ok e =>
    .ok { arabic := jsTrim (jsStringOf a),
          english :=
            if jsTruthy e then some (jsTrim (jsStringOf e)) else none }
  | _, _ => .error ()

/-- validateSentences translates the validation pipeline of the
conversation route: keep elements whose arabic field is truthy, coerce the
fields, then keep entries whose arabic field has positive length.  A null
array element makes the filter callback throw, which the enclosing try
block turns into the parse-failure response. -/
def validateSentences (elems : List Json) : Except Unit (List SentenceEntry) :=
  match jsFilterE convSentenceTest elems with
  | .error _ => .error ()
  | .ok kept =>
    match jsMapE toSentenceEntry kept with
    | .error _ => .error ()
    | .ok entries =>
      .ok (entries.filter (fun s => decide (0 < s.arabic.length)))

/-- normalizeWord translates the normalization of the vocabulary route:
lowercase, then trim. -/
def normalizeWord (text : List Char) : List Char :=
  jsTrim (jsToLowerCase text)

/-- normalizeText translates the normalization of the conversation route:
lowercase, then trim. -/
def normalizeText (text : List Char) : List Char :=
  jsTrim (jsToLowerCase text)

/-- wordPairKey builds the set key of the vocabulary route: the normalized
arabic and english fields joined by a vertical bar. -/
def wordPairKey (w : WordPair) : List Char :=
  normalizeWord w.arabic ++ '|' :: normalizeWord w.english

/-- sentenceKey builds the set key of the conversation route: the normalized
arabic text alone. -/
def sentenceKey (s : SentenceEntry) : List Char :=
  normalizeText s.arabic

/-- dedupWordPairs translates the duplicate filter of the vocabulary route:
walk the validated pairs in order, sending each pair whose key is in the
existing key set to the duplicates list and every other pair to the unique
list, both in their original order. -/
def dedupWordPairs : List WordPair → List (List Char) →
    List WordPair × List WordPair
  | [], _ => ([], [])
  | pair :: rest, keySet =>
    let tail := dedupWordPairs rest keySet
    if keySet.contains (wordPairKey pair) then (tail.1, pair :: tail.2)
    else (pair :: tail.1, tail.2)

/-- dedupSentences translates the duplicate filter of the conversation
route, keyed on the normalized arabic text alone. -/
def dedupSentences : List SentenceEntry → List (List Char) →
    List SentenceEntry × List SentenceEntry
  | [], _ => ([], [])
  | s :: rest, keySet =>
    let tail := dedupSentences rest keySet
    if keySet.contains (sentenceKey s) then (tail.1, s :: tail.2)
    else (s :: tail.1, tail.2)

/-- ApiOutcome describes what the call to the external completions endpoint
produced: an HTTP or transport failure carrying the thrown error message, or
a successful reply with its content string, the outcome of the attempt to
parse a JSON value out of that content (the bracket-matched substring or the
whole content; none when parsing threw), and the optional model field of the
reply. -/
inductive ApiOutcome where
  | httpFailure (message : List Char)
  | httpSuccess (content : List Char) (parsedContent : Option Json)
      (modelField : Option (List Char))

/-- Eff records the externally visible effects a handler performs, in
order. -/
inductive Eff where
  | readRequestBody
  | queryDatabase
  | callExternalApi (req : ChatRequest)
deriving DecidableEq

/-- ResponseBody enumerates the JSON bodies the two routes can answer
with. -/
inductive ResponseBody where
  | errorOnly (error : List Char)
  | errorWithRaw (error : List Char) (rawResponse : List Char)
  | vocabSuccess (wordPairs : List WordPair) (duplicates : List WordPair)
      (model : List Char)
  | convSuccess (sentences : List SentenceEntry)
      (duplicates : List SentenceEntry) (model : List Char)
deriving DecidableEq

/-- ResponseBody.wordPairsOf extracts the wordPairs field when the body has
one. -/
def ResponseBody.wordPairsOf : ResponseBody → Option (List WordPair)
  | .vocabSuccess wordPairs _ _ => some wordPairs
  | _ => none

/-- ResponseBody.sentencesOf extracts the sentences field when the body has
one. -/
def ResponseBody.sentencesOf : ResponseBody → Option (List SentenceEntry)
  | .convSuccess sentences _ _ => some sentences
  | _ => none

/-- ResponseBody.duplicateWordsOf extracts the duplicates field of a
vocabulary success body. -/
def ResponseBody.duplicateWordsOf : ResponseBody → Option (List WordPair)
  | .vocabSuccess _ duplicates _ => some duplicates
  | _ => none

/-- ResponseBody.duplicateSentencesOf extracts the duplicates field of a
conversation success body. -/
def ResponseBody.duplicateSentencesOf :
    ResponseBody → Option (List SentenceEntry)
  | .convSuccess _ duplicates _ => some duplicates
  | _ => none

/-- HttpResponse pairs a status code with a JSON body. -/
structure HttpResponse where
  status : Nat
  body : ResponseBody
deriving DecidableEq

/-- parsedListOrEmpty folds the two-level optionality of an optional form
field holding JSON: outer none when the field is absent or falsy, inner none
when JSON.parse threw; both cases leave the existing list empty. -/
def parsedListOrEmpty {α : Type} : Option (Option (List α)) → List α
  | none => []
  | some none => []
  | some (some xs) => xs

/-- unauthorizedBody is the 401 error message. -/
def unauthorizedBody : List Char := ( "Unauthorized").toList

/-- noImageBody is the 400 error message for a missing image. -/
def noImageBody : List Char := ( "No image file provided").toList

/-- notImageBody is the 400 error message for a non-image upload. -/
def notImageBody : List Char := ( "File must be an image").toList

/-- noKeyBody is the 500 error message for missing configuration. -/
def noKeyBody : List Char := ( "OpenRouter API key not configured").toList

/-- vocabParseFailBody is the 500 error message of the vocabulary route for
an unparseable model reply. -/
def vocabParseFailBody : List Char :=
  ( "Failed to parse extracted word pairs. The AI response was not in the expected format.").toList

/-- convParseFailBody is the 500 error message of the conversation route for
an unparseable model reply. -/
def convParseFailBody : List Char :=
  ( "Failed to parse extracted sentences. The AI response was not in the expected format.").toList

/-- imageMimePrefixChars is the required prefix of the MIME type of the
upload. -/
def imageMimePrefixChars : List Char := ( "image/").toList

/-- VocabRequest gathers the external inputs of the vocabulary extraction
route: the outcome of the admin check, the form fields (with the outcome of
JSON.parse on the existing words field supplied as the inner option), the
configuration lookup, and the outcome of the external API call. -/
structure VocabRequest where
  adminOk : Bool
  image : Option UploadedFile
  selectedModel : Option (List Char)
  customPrompt : Option (List Char)
  existingWordsJson : Option (Option (List WordPair))
  config : Option OpenRouterConfig
  api : ApiOutcome

/-- vocabPOST translates the POST handler of the vocabulary extraction
route.  The value is the ordered effect trace together with the HTTP
response.  The base prompt literal is passed as a parameter; the inner
duplicates accumulator of the source is shadowed by a block-local const, so
the response carries the untouched outer duplicates binding, which is the
empty array. -/
def vocabPOST (req : VocabRequest) (basePrompt : List Char) :
    List Eff × HttpResponse :=
  if req.adminOk then
    let effs0 := [Eff.readRequestBody]
    match req.image with
    | none => (effs0, { status := 400, body := .errorOnly noImageBody })
    | some file =>
      if imageMimePrefixChars.isPrefixOf file.mime then
        let existingWords := parsedListOrEmpty req.existingWordsJson
        match req.config with
        | none => (effs0, { status := 500, body := .errorOnly noKeyBody })
        | some config =>
          if config.apiKey = [] then
            (effs0, { status := 500, body := .errorOnly noKeyBody })
          else
            let model := chooseModel req.selectedModel config
            let prompt := promptText req.customPrompt basePrompt
            let chatReq : ChatRequest :=
              { model := model,
                messages :=
                  buildMessages prompt (dataUrl file.mime file.base64Data),
                temperature := 0 }
            let effs1 := effs0 ++ [Eff.callExternalApi chatReq]
            match req.api with
            | .httpFailure message =>
              (effs1, { status := 500, body := .errorOnly message })
            | .httpSuccess content parsedContent modelField =>
              match parsedContent with
              | some (.arr elems) =>
                (effs1,
                  match validateWordPairs elems with
                  | .error _ =>
                    { status := 500,
                      body := .errorWithRaw vocabParseFailBody content }
                  | .ok wordPairs =>
                    let keySet := existingWords.map wordPairKey
                    let result := dedupWordPairs wordPairs keySet
                    let duplicatesOuter : List WordPair := []
                    { status := 200,
                      body := .vocabSuccess result.1 duplicatesOuter
                        (jsOrStr modelField model) })
              | _ =>
                (effs1,
                  { status := 500,
                    body := .errorWithRaw vocabParseFailBody content })
      else (effs0, { status := 400, body := .errorOnly notImageBody })
  else ([], { status := 401, body := .errorOnly unauthorizedBody })

/-- ConvRequest gathers the external inputs of the conversation extraction
route.  The parsed lesson id input carries the outcome of parseInt (none
when the result is NaN); lessonFound carries the outcome of the database
lookup.  The vocabulary context assembled from the database is folded into
the base prompt parameter of convPOST. -/
structure ConvRequest where
  adminOk : Bool
  image : Option UploadedFile
  selectedModel : Option (List Char)
  customPrompt : Option (List Char)
  existingSentencesJson : Option (Option (List SentenceEntry))
  lessonIdStr : Option (List Char)
  lessonIdParsed : Option Int
  lessonFound : Bool
  config : Option OpenRouterConfig
  api : ApiOutcome

/-- lessonIdRequiredBody is the 400 error message for a missing lesson
id. -/
def lessonIdRequiredBody : List Char := ( "Lesson ID is required").toList

/-- invalidLessonIdBody is the 400 error message for an unparseable lesson
id. -/
def invalidLessonIdBody : List Char := ( "Invalid lesson ID").toList

/-- lessonNotFoundBody is the 404 error message for an unknown lesson. -/
def lessonNotFoundBody : List Char := ( "Lesson not found").toList

/-- convPOST translates the POST handler of the conversation extraction
route.  The value is the ordered effect trace together with the HTTP
response.  The twosome of database queries that build the vocabulary
context appear in the trace; their result is folded into the base prompt
parameter.  Here the duplicates binding of the source is reassigned, not
shadowed, so the response carries the collected duplicates. -/
def convPOST (req : ConvRequest) (basePrompt : List Char) :
    List Eff × HttpResponse :=
  if req.adminOk then
    let effs0 := [Eff.readRequestBody]
    match req.image with
    | none => (effs0, { status := 400, body := .errorOnly noImageBody })
    | some file =>
      if jsTruthyStrOpt req.lessonIdStr then
        match req.lessonIdParsed with
        | none =>
          (effs0, { status := 400, body := .errorOnly invalidLessonIdBody })
        | some _ =>
          if imageMimePrefixChars.isPrefixOf file.mime then
            let effs1 := effs0 ++ [Eff.queryDatabase]
            if req.lessonFound then
              let effs2 := effs1 ++ [Eff.queryDatabase]
              match req.config with
              | none =>
                (effs2, { status := 500, body := .errorOnly noKeyBody })
              | some config =>
                if config.apiKey = [] then
                  (effs2, { status := 500, body := .errorOnly noKeyBody })
                else
                  let model := chooseModel req.selectedModel config
                  let prompt := promptText req.customPrompt basePrompt
                  let chatReq : ChatRequest :=
                    { model := model,
                      messages :=
                        buildMessages prompt
                          (dataUrl file.mime file.base64Data),
                      temperature := 0 }
                  let effs3 := effs2 ++ [Eff.callExternalApi chatReq]
                  match req.api with
                  | .httpFailure message =>
                    (effs3, { status := 500, body := .errorOnly message })
                  | .httpSuccess content parsedContent modelField =>
                    match parsedContent with
                    | some (.arr elems) =>
                      (effs3,
                        match validateSentences elems with
                        | .error _ =>
                          { status := 500,
                            body :=
                              .errorWithRaw convParseFailBody content }
                        | .ok sentences =>
                          let keySet :=
                            (parsedListOrEmpty
                              req.existingSentencesJson).map sentenceKey
                          let result := dedupSentences sentences keySet
                          { status := 200,
                            body := .convSuccess result.1 result.2
                              (jsOrStr modelField model) })
                    | _ =>
                      (effs3,
                        { status := 500,
                          body := .errorWithRaw convParseFailBody content })
            else
              (effs1,
                { status := 404, body := .errorOnly lessonNotFoundBody })
          else
            (effs0, { status := 400, body := .errorOnly notImageBody })
      else
        (effs0, { status := 400, body := .errorOnly lessonIdRequiredBody })
  else ([], { status := 401, body := .errorOnly unauthorizedBody })

/-! Learner books page (second document of src/unnamed/part_002). -/

/-- Book mirrors the book rows rendered by the learner books page. -/
structure Book where
  id : Int
  title : List Char
  description : Option (List Char)
deriving DecidableEq

/-- Session stands for an authenticated session record. -/
structure Session where
  userId : List Char
deriving DecidableEq

/-- PageEff records the data fetches a page performs. -/
inductive PageEff where
  | fetchBooks
deriving DecidableEq

/-- PageResult is the outcome of rendering a server page: a redirect or a
rendered book list. -/
inductive PageResult where
  | redirectTo (path : List Char)
  | renderBooks (books : List Book)
deriving DecidableEq

/-- loginPath is the redirect target for an unauthenticated learner. -/
def loginPath : List Char := ( "/login").toList

/-- BooksPage translates the learner books page: redirect to the login page
when there is no session, otherwise fetch and render the books. -/
def BooksPage (session : Option Session) (books : List Book) :
    List PageEff × PageResult :=
  match session with
  | none => ([], PageResult.redirectTo loginPath)
  | some _ => ([PageEff.fetchBooks], PageResult.renderBooks books)

/-! Concrete sample values used by the witness theorems. -/

/-- demoFile is a sample PNG upload. -/
def demoFile : UploadedFile :=
  { mime := ( "image/png").toList, base64Data := ( "QUJD").toList }

/-- demoConfig is a sample configuration with a key and no supported model
list. -/
def demoConfig : OpenRouterConfig :=
  { apiKey := ( "key").toList, supportedModels := [] }

/-- demoWords is a sample word list with distinct ids. -/
def demoWords : List VocabularyWord :=
  [ { id := 1, arabic := ( "kitab").toList, english := ( "book").toList },
    { id := 2, arabic := ( "qalam").toList, english := ( "pen").toList } ]

/-- demoAnswers answers the first sample word with extra whitespace and
leaves the second unanswered. -/
def demoAnswers : Int → Option (List Char) :=
  fun i => if i = 1 then some ( " book ").toList else none

/-- demoPair is the validated pair extracted from demoGoodEntry. -/
def demoPair : WordPair :=
  { arabic := ( "kitab").toList, english := ( "book").toList }

/-- demoGoodEntry is a sample extracted entry with untrimmed fields. -/
def demoGoodEntry : Json :=
  Json.obj [ (arabicField, Json.str ( " kitab ").toList),
             (englishField, Json.str ( " book ").toList) ]

/-- demoBadEntry is a sample extracted entry with no fields at all. -/
def demoBadEntry : Json := Json.str ( "noise").toList

/-- demoElems is a sample parsed reply array. -/
def demoElems : List Json := [demoGoodEntry, demoBadEntry]

/-! Helper lemmas shared by the claim theorems. -/

/-- jsTrim of a trimmed string is itself. -/
theorem jsTrim_idem (s : List Char) : jsTrim (jsTrim s) = jsTrim s := by
  unfold jsTrim
  have h1 : List.dropWhile isJsWhitespace
      (List.rdropWhile isJsWhitespace (List.dropWhile isJsWhitespace s)) =
      List.rdropWhile isJsWhitespace (List.dropWhile isJsWhitespace s) := by
    rcases hpre : List.rdropWhile isJsWhitespace
        (List.dropWhile isJsWhitespace s) with _ | ⟨a, t⟩
    · simp
    · have hp : (a :: t) <+: List.dropWhile isJsWhitespace s := by
        rw [← hpre]; exact List.rdropWhile_prefix _ _
      obtain ⟨r, hr⟩ := hp
      have hd : List.dropWhile isJsWhitespace s = a :: (t ++ r) := by
        rw [← hr]; simp
      have hidem := List.dropWhile_idempotent isJsWhitespace s
      rw [hd, List.dropWhile_cons] at hidem
      have hpa : isJsWhitespace a = false := by
        by_contra hcon
        rw [if_pos (by revert hcon; cases isJsWhitespace a <;> simp)] at hidem
        have hlen := congrArg List.length hidem
        have hle := (List.dropWhile_sublist (p := isJsWhitespace)
          (l := t ++ r)).length_le
        simp [List.length_append] at hlen hle
        omega
      rw [List.dropWhile_cons, hpa]
      simp
  rw [h1, List.rdropWhile_idempotent]

/-- jsTrim of the empty string is empty. -/
theorem jsTrim_nil : jsTrim [] = [] := by
  simp [jsTrim]

/-- stepCurrentIndex keeps the index at or below the last position. -/
theorem stepCurrentIndex_le (wordsLength i : Nat) (hi : i ≤ wordsLength - 1)
    (a : FlashcardAction) :
    stepCurrentIndex wordsLength i a ≤ wordsLength - 1 := by
  cases a with
  | next =>
    simp only [stepCurrentIndex, handleNext]
    split <;> omega
  | previous =>
    simp only [stepCurrentIndex, handlePrevious]
    split <;> omega
  | testReset =>
    simp only [stepCurrentIndex, handleTestReset]
    omega

/-- dedupWordPairs keeps, in order, the pairs whose key is outside the key
set. -/
theorem dedupWordPairs_fst (pairs : List WordPair)
    (keySet : List (List Char)) :
    (dedupWordPairs pairs keySet).1 =
      pairs.filter (fun p => !(keySet.contains (wordPairKey p))) := by
  induction pairs with
  | nil => rfl
  | cons p ps ih =>
    simp only [dedupWordPairs, List.filter_cons]
    cases h : keySet.contains (wordPairKey p) <;> simp [h, ih]

/-- dedupWordPairs collects, in order, the pairs whose key is inside the key
set. -/
theorem dedupWordPairs_snd (pairs : List WordPair)
    (keySet : List (List Char)) :
    (dedupWordPairs pairs keySet).2 =
      pairs.filter (fun p => keySet.contains (wordPairKey p)) := by
  induction pairs with
  | nil => rfl
  | cons p ps ih =>
    simp only [dedupWordPairs, List.filter_cons]
    cases h : keySet.contains (wordPairKey p) <;> simp [h, ih]

/-- dedupSentences keeps, in order, the sentences whose key is outside the
key set. -/
theorem dedupSentences_fst (sentences : List SentenceEntry)
    (keySet : List (List Char)) :
    (dedupSentences sentences keySet).1 =
      sentences.filter (fun s => !(keySet.contains (sentenceKey s))) := by
  induction sentences with
  | nil => rfl
  | cons s ss ih =>
    simp only [dedupSentences, List.filter_cons]
    cases h : keySet.contains (sentenceKey s) <;> simp [h, ih]

/-- dedupSentences collects, in order, the sentences whose key is inside the
key set. -/
theorem dedupSentences_snd (sentences : List SentenceEntry)
    (keySet : List (List Char)) :
    (dedupSentences sentences keySet).2 =
      sentences.filter (fun s => keySet.contains (sentenceKey s)) := by
  induction sentences with
  | nil => rfl
  | cons s ss ih =>
    simp only [dedupSentences, List.filter_cons]
    cases h : keySet.contains (sentenceKey s) <;> simp [h, ih]

/-- Membership in a mapped key list is existence of a source element with
that key. -/
theorem contains_map_key {α : Type} (key : α → List Char) (ex : List α)
    (k : List Char) :
    (ex.map key).contains k = decide (∃ e ∈ ex, key e = k) := by
  rw [Bool.eq_iff_iff]
  simp [List.mem_map, eq_comm]

/-! Claim theorems. -/

/-- Claim C10: for a non-empty word list the flashcard index stays within
the closed interval from zero to the word count minus one under every
operation (handleNext, handlePrevious, handleTestReset), single steps and
arbitrary sequences alike, so the displayed current word always exists. -/
theorem currentIndex_stays_in_bounds (wordsLength currentIndex : Nat)
    (hlen : 0 < wordsLength) (hidx : currentIndex ≤ wordsLength - 1) :
    (∀ a : FlashcardAction,
        stepCurrentIndex wordsLength currentIndex a ≤ wordsLength - 1 ∧
        stepCurrentIndex wordsLength currentIndex a < wordsLength) ∧
    (∀ actions : List FlashcardAction,
        actions.foldl (stepCurrentIndex wordsLength) currentIndex ≤
          wordsLength - 1) := by
  constructor
  · intro a
    have h := stepCurrentIndex_le wordsLength currentIndex hidx a
    exact ⟨h, Nat.lt_of_le_of_lt h (Nat.sub_lt hlen Nat.one_pos)⟩
  · intro actions
    induction actions generalizing currentIndex with
    | nil => exact hidx
    | cons a rest ih =>
      exact ih (stepCurrentIndex wordsLength currentIndex a)
        (stepCurrentIndex_le wordsLength currentIndex hidx a)

/-- Witness for C10 at a two-word list and index one. -/
theorem currentIndex_stays_in_bounds_witness :
    (∀ a : FlashcardAction,
        stepCurrentIndex 2 1 a ≤ 2 - 1 ∧ stepCurrentIndex 2 1 a < 2) ∧
    (∀ actions : List FlashcardAction,
        actions.foldl (stepCurrentIndex 2) 1 ≤ 2 - 1) :=
  currentIndex_stays_in_bounds 2 1 (by decide) (by decide)

/-- Claim C3: when the admin check fails, each extraction handler answers
401 Unauthorized with an empty effect trace, so the request body is never
read and the external API is never called; and the learner books page with
no session redirects to the login page without fetching any data. -/
theorem admin_and_session_gates :
    (∀ (image : Option UploadedFile) (sel custom : Option (List Char))
        (ej : Option (Option (List WordPair)))
        (cfg : Option OpenRouterConfig) (api : ApiOutcome)
        (basePrompt : List Char),
        vocabPOST ⟨false, image, sel, custom, ej, cfg, api⟩ basePrompt =
          ([], ⟨401, .errorOnly unauthorizedBody⟩)) ∧
    (∀ (image : Option UploadedFile) (sel custom : Option (List Char))
        (es : Option (Option (List SentenceEntry)))
        (lstr : Option (List Char)) (lid : Option Int) (lfound : Bool)
        (cfg : Option OpenRouterConfig) (api : ApiOutcome)
        (basePrompt : List Char),
        convPOST ⟨false, image, sel, custom, es, lstr, lid, lfound, cfg, api⟩
            basePrompt =
          ([], ⟨401, .errorOnly unauthorizedBody⟩)) ∧
    (∀ books : List Book,
        BooksPage none books = ([], PageResult.redirectTo loginPath)) :=
  ⟨fun _ _ _ _ _ _ _ => rfl, fun _ _ _ _ _ _ _ _ _ _ => rfl, fun _ => rfl⟩

/-- Claim C5: the prompt sent to the external API is the trimmed custom
prompt exactly when the supplied custom prompt has a non-empty trim, and the
built-in base prompt otherwise; and on the path that reaches the API call,
each handler sends exactly one user message consisting of that prompt text
followed by the uploaded image as a base64 data URL of the file MIME type,
with temperature zero. -/
theorem outgoing_request_shape :
    (∀ basePrompt : List Char, promptText none basePrompt = basePrompt) ∧
    (∀ (c basePrompt : List Char),
        jsTrim c ≠ [] → promptText (some c) basePrompt = jsTrim c) ∧
    (∀ (c basePrompt : List Char),
        jsTrim c = [] → promptText (some c) basePrompt = basePrompt) ∧
    (∀ (file : UploadedFile) (sel custom : Option (List Char))
        (ej : Option (Option (List WordPair))) (cfg : OpenRouterConfig)
        (api : ApiOutcome) (basePrompt : List Char),
        cfg.apiKey ≠ [] →
        imageMimePrefixChars.isPrefixOf file.mime = true →
        (vocabPOST ⟨true, some file, sel, custom, ej, some cfg, api⟩
            basePrompt).1 =
          [Eff.readRequestBody,
           Eff.callExternalApi
             { model := chooseModel sel cfg,
               messages :=
                 [ { role := ( "user").toList,
                     content :=
                       [ ContentPart.textPart (promptText custom basePrompt),
                         ContentPart.imagePart
                           (( "data:").toList ++ file.mime ++
                             ( ";base64,").toList ++ file.base64Data) ] } ],
               temperature := 0 }]) ∧
    (∀ (file : UploadedFile) (sel custom : Option (List Char))
        (es : Option (Option (List SentenceEntry)))
        (lstr : Option (List Char)) (n : Int) (cfg : OpenRouterConfig)
        (api : ApiOutcome) (basePrompt : List Char),
        jsTruthyStrOpt lstr = true →
        cfg.apiKey ≠ [] →
        imageMimePrefixChars.isPrefixOf file.mime = true →
        (convPOST ⟨true, some file, sel, custom, es, lstr, some n, true,
            some cfg, api⟩ basePrompt).1 =
          [Eff.readRequestBody, Eff.queryDatabase, Eff.queryDatabase,
           Eff.callExternalApi
             { model := chooseModel sel cfg,
               messages :=
                 [ { role := ( "user").toList,
                     content :=
                       [ ContentPart.textPart (promptText custom basePrompt),
                         ContentPart.imagePart
                           (( "data:").toList ++ file.mime ++
                             ( ";base64,").toList ++ file.base64Data) ] } ],
               temperature := 0 }]) := by
  refine ⟨fun basePrompt => rfl, ?_, ?_, ?_, ?_⟩
  · intro c basePrompt hc
    simp [promptText, jsOrStr, hc]
  · intro c basePrompt hc
    simp [promptText, jsOrStr, hc]
  · intro file sel custom ej cfg api basePrompt hkey hmime
    cases api with
    | httpFailure message =>
      simp [vocabPOST, hmime, hkey, buildMessages, dataUrl]
    | httpSuccess content parsedContent modelField =>
      cases parsedContent with
      | none => simp [vocabPOST, hmime, hkey, buildMessages, dataUrl]
      | some j =>
        cases j <;> simp [vocabPOST, hmime, hkey, buildMessages, dataUrl]
  · intro file sel custom es lstr n cfg api basePrompt hl hkey hmime
    cases api with
    | httpFailure message =>
      simp [convPOST, hl, hmime, hkey, buildMessages, dataUrl]
    | httpSuccess content parsedContent modelField =>
      cases parsedContent with
      | none => simp [convPOST, hl, hmime, hkey, buildMessages, dataUrl]
      | some j =>
        cases j <;> simp [convPOST, hl, hmime, hkey, buildMessages, dataUrl]

/-- Witness for C5 at a concrete custom prompt, upload and
configuration. -/
theorem outgoing_request_shape_witness :
    promptText (some ( " hi ").toList) ( "base").toList =
      jsTrim ( " hi ").toList ∧
    (vocabPOST ⟨true, some demoFile, none, none, none, some demoConfig,
        .httpFailure ( "down").toList⟩ ( "base").toList).1 =
      [Eff.readRequestBody,
       Eff.callExternalApi
         { model := chooseModel none demoConfig,
           messages :=
             [ { role := ( "user").toList,
                 content :=
                   [ ContentPart.textPart
                       (promptText none ( "base").toList),
                     ContentPart.imagePart
                       (( "data:").toList ++ demoFile.mime ++
                         ( ";base64,").toList ++ demoFile.base64Data) ] } ],
           temperature := 0 }] :=
  ⟨outgoing_request_shape.2.1 ( " hi ").toList ( "base").toList (by decide),
   outgoing_request_shape.2.2.2.1 demoFile none none none demoConfig
     (.httpFailure ( "down").toList) ( "base").toList (by decide)
     (by decide)⟩

/-- Claim C2: when the successful model reply carries no parseable JSON
array (the parse attempt threw, or the parsed value is not an array), each
handler answers 500 with the fixed parse error message and the raw reply
content, and the body carries no wordPairs or sentences field. -/
theorem parse_failure_returns_500 :
    (∀ (file : UploadedFile) (sel custom : Option (List Char))
        (ej : Option (Option (List WordPair))) (cfg : OpenRouterConfig)
        (basePrompt content : List Char) (parsedContent : Option Json)
        (mf : Option (List Char)),
        cfg.apiKey ≠ [] →
        imageMimePrefixChars.isPrefixOf file.mime = true →
        (parsedContent = none ∨
          ∀ elems, parsedContent ≠ some (Json.arr elems)) →
        (vocabPOST ⟨true, some file, sel, custom, ej, some cfg,
            .httpSuccess content parsedContent mf⟩ basePrompt).2 =
          ⟨500, .errorWithRaw vocabParseFailBody content⟩ ∧
        ((vocabPOST ⟨true, some file, sel, custom, ej, some cfg,
            .httpSuccess content parsedContent mf⟩
            basePrompt).2.body).wordPairsOf = none) ∧
    (∀ (file : UploadedFile) (sel custom : Option (List Char))
        (es : Option (Option (List SentenceEntry)))
        (lstr : Option (List Char)) (n : Int) (cfg : OpenRouterConfig)
        (basePrompt content : List Char) (parsedContent : Option Json)
        (mf : Option (List Char)),
        jsTruthyStrOpt lstr = true →
        cfg.apiKey ≠ [] →
        imageMimePrefixChars.isPrefixOf file.mime = true →
        (parsedContent = none ∨
          ∀ elems, parsedContent ≠ some (Json.arr elems)) →
        (convPOST ⟨true, some file, sel, custom, es, lstr, some n, true,
            some cfg, .httpSuccess content parsedContent mf⟩ basePrompt).2 =
          ⟨500, .errorWithRaw convParseFailBody content⟩ ∧
        ((convPOST ⟨true, some file, sel, custom, es, lstr, some n, true,
            some cfg, .httpSuccess content parsedContent mf⟩
            basePrompt).2.body).sentencesOf = none) := by
  constructor
  · intro file sel custom ej cfg basePrompt content parsedContent mf
      hkey hmime hbad
    have h2 : (vocabPOST ⟨true, some file, sel, custom, ej, some cfg,
        .httpSuccess content parsedContent mf⟩ basePrompt).2 =
        ⟨500, .errorWithRaw vocabParseFailBody content⟩ := by
      rcases hbad with rfl | hbad
      · simp [vocabPOST, hmime, hkey]
      · cases parsedContent with
        | none => simp [vocabPOST, hmime, hkey]
        | some j =>
          cases j with
          | arr elems => exact absurd rfl (hbad elems)
          | str s => simp [vocabPOST, hmime, hkey]
          | num a => simp [vocabPOST, hmime, hkey]
          | bool b => simp [vocabPOST, hmime, hkey]
          | null => simp [vocabPOST, hmime, hkey]
          | obj fields => simp [vocabPOST, hmime, hkey]
    exact ⟨h2, by rw [h2]; rfl⟩
  · intro file sel custom es lstr n cfg basePrompt content parsedContent mf
      hl hkey hmime hbad
    have h2 : (convPOST ⟨true, some file, sel, custom, es, lstr, some n,
        true, some cfg, .httpSuccess content parsedContent mf⟩
        basePrompt).2 =
        ⟨500, .errorWithRaw convParseFailBody content⟩ := by
      rcases hbad with rfl | hbad
      · simp [convPOST, hl, hmime, hkey]
      · cases parsedContent with
        | none => simp [convPOST, hl, hmime, hkey]
        | some j =>
          cases j with
          | arr elems => exact absurd rfl (hbad elems)
          | str s => simp [convPOST, hl, hmime, hkey]
          | num a => simp [convPOST, hl, hmime, hkey]
          | bool b => simp [convPOST, hl, hmime, hkey]
          | null => simp [convPOST, hl, hmime, hkey]
          | obj fields => simp [convPOST, hl, hmime, hkey]
    exact ⟨h2, by rw [h2]; rfl⟩

/-- Witness for C2 at a reply whose parse attempt threw. -/
theorem parse_failure_returns_500_witness :
    ((vocabPOST ⟨true, some demoFile, none, none, none, some demoConfig,
        .httpSuccess ( "oops").toList none none⟩ ( "base").toList).2 =
      ⟨500, .errorWithRaw vocabParseFailBody ( "oops").toList⟩ ∧
    ((vocabPOST ⟨true, some demoFile, none, none, none, some demoConfig,
        .httpSuccess ( "oops").toList none none⟩
        ( "base").toList).2.body).wordPairsOf = none) ∧
    ((convPOST ⟨true, some demoFile, none, none, none, some ( "5").toList,
        some 5, true, some demoConfig,
        .httpSuccess ( "oops").toList none none⟩ ( "base").toList).2 =
      ⟨500, .errorWithRaw convParseFailBody ( "oops").toList⟩ ∧
    ((convPOST ⟨true, some demoFile, none, none, none, some ( "5").toList,
        some 5, true, some demoConfig,
        .httpSuccess ( "oops").toList none none⟩
        ( "base").toList).2.body).sentencesOf = none) :=
  ⟨parse_failure_returns_500.1 demoFile none none none demoConfig
     ( "base").toList ( "oops").toList none none (by decide) (by decide)
     (Or.inl rfl),
   parse_failure_returns_500.2 demoFile none none none (some ( "5").toList)
     5 demoConfig ( "base").toList ( "oops").toList none none (by decide)
     (by decide) (by decide) (Or.inl rfl)⟩

/-- Claim C9: under the assumption that each random sort permutes its
input, the generated options contain the correct answer, have at most four
elements, and every element other than the correct answer is the english
field of some other word of the list. -/
theorem multiple_choice_options_spec
    (shuffleA shuffleB : List (List Char) → List (List Char))
    (hA : ∀ l, List.Perm (shuffleA l) l)
    (hB : ∀ l, List.Perm (shuffleB l) l)
    (correctAnswer : List Char) (allWords : List VocabularyWord)
    (currentWordId : Int) :
    correctAnswer ∈ generateMultipleChoiceOptions shuffleA shuffleB
      correctAnswer allWords currentWordId ∧
    (generateMultipleChoiceOptions shuffleA shuffleB correctAnswer allWords
      currentWordId).length ≤ 4 ∧
    ∀ o ∈ generateMultipleChoiceOptions shuffleA shuffleB correctAnswer
        allWords currentWordId,
      o = correctAnswer ∨
        o ∈ (allWords.filter
              (fun w => decide (w.id ≠ currentWordId))).map
            (fun w => w.english) := by
  simp only [generateMultipleChoiceOptions]
  set distractors :=
    (allWords.filter (fun w => decide (w.id ≠ currentWordId))).map
      (fun w => w.english) with hdis
  have hperm := hB (correctAnswer :: (shuffleA distractors).take 3)
  refine ⟨?_, ?_, ?_⟩
  · exact hperm.mem_iff.mpr (List.mem_cons_self _ _)
  · rw [hperm.length_eq]
    have := List.length_take_le 3 (shuffleA distractors)
    simp only [List.length_cons]
    omega
  · intro o ho
    have ho2 := hperm.mem_iff.mp ho
    rcases List.mem_cons.mp ho2 with h | h
    · exact Or.inl h
    · refine Or.inr ?_
      have h3 := (List.take_sublist 3 (shuffleA distractors)).mem h
      exact (hA distractors).mem_iff.mp h3

/-- Witness for C9 with the identity shuffles and the sample word list. -/
theorem multiple_choice_options_witness :
    ( "book").toList ∈ generateMultipleChoiceOptions id id ( "book").toList
      demoWords 1 ∧
    (generateMultipleChoiceOptions id id ( "book").toList demoWords
      1).length ≤ 4 ∧
    ∀ o ∈ generateMultipleChoiceOptions id id ( "book").toList demoWords 1,
      o = ( "book").toList ∨
        o ∈ (demoWords.filter (fun w => decide (w.id ≠ (1 : Int)))).map
            (fun w => w.english) :=
  multiple_choice_options_spec id id (fun l => List.Perm.refl l)
    (fun l => List.Perm.refl l) ( "book").toList demoWords 1

/-- Claim C1: the de-duplication removes exactly the validated entries
whose normalized key (lowercased then trimmed; the arabic and english pair
joined by a bar for vocabulary, the arabic text alone for conversation)
equals the normalized key of some existing record, and keeps every other
entry, in its original order, in the kept list. -/
theorem dedup_removes_exactly_matches :
    (∀ (pairs existing : List WordPair),
        (dedupWordPairs pairs (existing.map wordPairKey)).1 =
          pairs.filter
            (fun p =>
              decide (¬ ∃ e ∈ existing, wordPairKey e = wordPairKey p)) ∧
        (dedupWordPairs pairs (existing.map wordPairKey)).2 =
          pairs.filter
            (fun p =>
              decide (∃ e ∈ existing, wordPairKey e = wordPairKey p))) ∧
    (∀ (sentences existing : List SentenceEntry),
        (dedupSentences sentences (existing.map sentenceKey)).1 =
          sentences.filter
            (fun s =>
              decide (¬ ∃ e ∈ existing, sentenceKey e = sentenceKey s)) ∧
        (dedupSentences sentences (existing.map sentenceKey)).2 =
          sentences.filter
            (fun s =>
              decide (∃ e ∈ existing, sentenceKey e = sentenceKey s))) := by
  constructor
  · intro pairs existing
    rw [dedupWordPairs_fst, dedupWordPairs_snd]
    constructor
    · apply List.filter_congr
      intro p _
      rw [contains_map_key, decide_not]
    · apply List.filter_congr
      intro p _
      rw [contains_map_key]
  · intro sentences existing
    rw [dedupSentences_fst, dedupSentences_snd]
    constructor
    · apply List.filter_congr
      intro s _
      rw [contains_map_key, decide_not]
    · apply List.filter_congr
      intro s _
      rw [contains_map_key]

/-- Claim C8: on every input whose validation completes, the vocabulary
handler reports an empty duplicates array in its successful response,
whatever was removed, because the inner const declaration shadows the outer
duplicates binding; the conversation handler reports exactly the removed
sentences. -/
theorem duplicates_field_shadowing :
    (∀ (file : UploadedFile) (sel custom : Option (List Char))
        (ej : Option (Option (List WordPair))) (cfg : OpenRouterConfig)
        (basePrompt content : List Char) (elems : List Json)
        (mf : Option (List Char)) (pairs : List WordPair),
        cfg.apiKey ≠ [] →
        imageMimePrefixChars.isPrefixOf file.mime = true →
        validateWordPairs elems = .ok pairs →
        ((vocabPOST ⟨true, some file, sel, custom, ej, some cfg,
            .httpSuccess content (some (.arr elems)) mf⟩
            basePrompt).2.body).duplicateWordsOf = some []) ∧
    (∀ (file : UploadedFile) (sel custom : Option (List Char))
        (es : Option (Option (List SentenceEntry)))
        (lstr : Option (List Char)) (n : Int) (cfg : OpenRouterConfig)
        (basePrompt content : List Char) (elems : List Json)
        (mf : Option (List Char)) (entries : List SentenceEntry),
        jsTruthyStrOpt lstr = true →
        cfg.apiKey ≠ [] →
        imageMimePrefixChars.isPrefixOf file.mime = true →
        validateSentences elems = .ok entries →
        ((convPOST ⟨true, some file, sel, custom, es, lstr, some n, true,
            some cfg, .httpSuccess content (some (.arr elems)) mf⟩
            basePrompt).2.body).duplicateSentencesOf =
          some (entries.filter
            (fun s =>
              decide (∃ e ∈ parsedListOrEmpty es,
                sentenceKey e = sentenceKey s)))) := by
  constructor
  · intro file sel custom ej cfg basePrompt content elems mf pairs hkey
      hmime hval
    simp [vocabPOST, hmime, hkey, hval, ResponseBody.duplicateWordsOf]
  · intro file sel custom es lstr n cfg basePrompt content elems mf
      entries hl hkey hmime hval
    simp [convPOST, hl, hmime, hkey, hval,
      ResponseBody.duplicateSentencesOf, dedupSentences_snd]

/-- Witness for C8 at a reply whose single valid entry duplicates an
existing record in both routes. -/
theorem duplicates_field_shadowing_witness :
    ((vocabPOST ⟨true, some demoFile, none, none,
        some (some [demoPair]), some demoConfig,
        .httpSuccess ( "raw").toList (some (.arr demoElems)) none⟩
        ( "base").toList).2.body).duplicateWordsOf = some [] ∧
    ((convPOST ⟨true, some demoFile, none, none,
        some (some ([ { arabic := ( "kitab").toList, english := none } ] :
          List SentenceEntry)),
        some ( "5").toList, some 5, true, some demoConfig,
        .httpSuccess ( "raw").toList (some (.arr demoElems)) none⟩
        ( "base").toList).2.body).duplicateSentencesOf =
      some (([ { arabic := ( "kitab").toList,
                 english := some (( "book").toList) } ] :
          List SentenceEntry).filter
        (fun s =>
          decide (∃ e ∈ parsedListOrEmpty
              (some (some ([ { arabic := ( "kitab").toList,
                               english := none } ] : List SentenceEntry))),
            sentenceKey e = sentenceKey s))) :=
  ⟨duplicates_field_shadowing.1 demoFile none none (some (some [demoPair]))
     demoConfig ( "base").toList ( "raw").toList demoElems none [demoPair]
     (by decide) (by decide) (by decide),
   duplicates_field_shadowing.2 demoFile none none
     (some (some ([ { arabic := ( "kitab").toList, english := none } ] :
       List SentenceEntry)))
     (some ( "5").toList) 5 demoConfig ( "base").toList ( "raw").toList
     demoElems none
     [ { arabic := ( "kitab").toList, english := some (( "book").toList) } ]
     (by decide) (by decide) (by decide) (by decide)⟩

/-- playSentenceSequentially visits exactly the suffix of the playable list
from the given index. -/
theorem playSentenceSequentially_eq_drop
    (p : List ConversationSentence) : ∀ (n i : Nat), p.length - i = n →
    playSentenceSequentially p i = p.drop i := by
  intro n
  induction n with
  | zero =>
    intro i h
    unfold playSentenceSequentially
    rw [dif_neg (by omega)]
    symm
    exact List.drop_eq_nil_of_le (by omega)
  | succ n ih =>
    intro i h
    unfold playSentenceSequentially
    by_cases hi : i < p.length
    · rw [dif_pos hi, ih (i + 1) (by omega),
        List.drop_eq_getElem_cons hi]
      simp
    · rw [dif_neg hi]
      symm
      exact List.drop_eq_nil_of_le (by omega)

/-- handlePlayAll speaks the playable filter of the sorted sentence list. -/
theorem handlePlayAll_eq (sentences : List ConversationSentence)
    (lang : Language) :
    handlePlayAll sentences lang =
      (sortedSentences sentences).filter (sentenceHasText lang) := by
  simp only [handlePlayAll]
  by_cases h :
      ((sortedSentences sentences).filter (sentenceHasText lang)).length = 0
  · rw [if_pos h]
    symm
    exact List.length_eq_zero.mp h
  · rw [if_neg h,
      playSentenceSequentially_eq_drop
        ((sortedSentences sentences).filter (sentenceHasText lang))
        ((sortedSentences sentences).filter
          (sentenceHasText lang)).length 0 (by omega),
      List.drop_zero]

/-- A truthiness test followed by a positive trimmed length is the same as a
non-empty trim. -/
theorem truthy_trim_iff (t : List Char) :
    (decide (t ≠ []) && decide (0 < (jsTrim t).length)) = true ↔
      jsTrim t ≠ [] := by
  simp only [Bool.and_eq_true, decide_eq_true_eq]
  constructor
  · rintro ⟨h1, h2⟩ hc
    rw [hc] at h2
    simp at h2
  · intro h
    refine ⟨?_, ?_⟩
    · intro hc
      apply h
      rw [hc]
      exact jsTrim_nil
    · rcases hl : jsTrim t with _ | ⟨a, u⟩
      · exact absurd hl h
      · simp [hl]

/-- The playability test of a sentence is a non-empty trim of its text in
the selected language. -/
theorem sentenceHasText_iff (lang : Language) (s : ConversationSentence) :
    sentenceHasText lang s = true ↔ jsTrim (textIn lang s) ≠ [] := by
  cases lang with
  | arabic => exact truthy_trim_iff s.arabic
  | english =>
    cases he : s.english with
    | none =>
      simp [sentenceHasText, textIn, he, jsOrStr, jsTrim_nil]
    | some e =>
      by_cases hee : e = []
      · subst hee
        simp [sentenceHasText, textIn, he, jsOrStr, jsTrim_nil]
      · have ht : textIn Language.english s = e := by
          simp [textIn, he, jsOrStr, hee]
        have hh : sentenceHasText Language.english s =
            (decide (e ≠ []) && decide (0 < (jsTrim e).length)) := by
          simp [sentenceHasText, he]
        rw [ht, hh]
        exact truthy_trim_iff e

/-- Claim C7: a Play All run speaks exactly the sentences whose text in the
selected language is non-empty after trimming, in ascending order of their
order field, and nothing else: the spoken sequence is a permutation of that
filter of the sentence list, it is pairwise ordered by the order field, and
a sentence is spoken iff it belongs to the list and its trimmed text in the
selected language is non-empty. -/
theorem play_all_speaks_exactly_playable
    (sentences : List ConversationSentence) (lang : Language) :
    List.Perm (handlePlayAll sentences lang)
      (sentences.filter (sentenceHasText lang)) ∧
    List.Pairwise (fun a b => a.order ≤ b.order)
      (handlePlayAll sentences lang) ∧
    ∀ s, s ∈ handlePlayAll sentences lang ↔
      (s ∈ sentences ∧ jsTrim (textIn lang s) ≠ []) := by
  rw [handlePlayAll_eq]
  simp only [sortedSentences]
  refine ⟨?_, ?_, ?_⟩
  · exact (List.mergeSort_perm sentences _).filter _
  · have hs := @List.sorted_mergeSort ConversationSentence
      (fun a b : ConversationSentence => decide (a.order ≤ b.order))
      (by
        intro a b c h1 h2
        simp only [decide_eq_true_eq] at h1 h2 ⊢
        omega)
      (by
        intro a b
        simp only [Bool.or_eq_true, decide_eq_true_eq]
        omega)
      sentences
    have h2 := List.Pairwise.sublist
      (List.filter_sublist (p := sentenceHasText lang) _) hs
    exact h2.imp (fun h => by simpa using h)
  · intro s
    rw [List.mem_filter]
    constructor
    · rintro ⟨h1, h2⟩
      exact ⟨(List.mergeSort_perm sentences _).mem_iff.mp h1,
        (sentenceHasText_iff lang s).mp h2⟩
    · rintro ⟨h1, h2⟩
      exact ⟨(List.mergeSort_perm sentences _).mem_iff.mpr h1,
        (sentenceHasText_iff lang s).mpr h2⟩

/-- recordSet with a key absent from the record appends the entry. -/
theorem recordSet_fresh (m : List (Int × Bool)) (key : Int) (v : Bool)
    (h : ∀ kv ∈ m, kv.1 ≠ key) : recordSet m key v = m ++ [(key, v)] := by
  have hc : ¬ (m.any (fun kv => decide (kv.1 = key)) = true) := by
    rw [List.any_eq_true]
    rintro ⟨kv, hkv, he⟩
    exact h kv hkv (by simpa using he)
  simp only [recordSet]
  rw [if_neg hc]

/-- Folding recordSet over words whose ids are fresh for the accumulator
and pairwise distinct appends one entry per word, in order. -/
theorem foldl_recordSet_eq (f : VocabularyWord → Bool) :
    ∀ (ws : List VocabularyWord) (acc : List (Int × Bool)),
      (∀ w ∈ ws, ∀ kv ∈ acc, kv.1 ≠ w.id) →
      (ws.map (fun w => w.id)).Nodup →
      ws.foldl (fun m w => recordSet m w.id (f w)) acc =
        acc ++ ws.map (fun w => (w.id, f w)) := by
  intro ws
  induction ws with
  | nil =>
    intro acc _ _
    simp
  | cons w ws ih =>
    intro acc hfresh hnodup
    have hnd : w.id ∉ ws.map (fun w => w.id) ∧
        (ws.map (fun w => w.id)).Nodup := by
      rw [List.map_cons, List.nodup_cons] at hnodup
      exact hnodup
    simp only [List.foldl_cons]
    rw [recordSet_fresh acc w.id (f w)
      (fun kv hkv => hfresh w (List.mem_cons_self _ _) kv hkv)]
    rw [ih (acc ++ [(w.id, f w)]) ?_ hnd.2]
    · simp
    · intro w2 hw2 kv hkv
      rcases List.mem_append.mp hkv with hin | hin
      · exact hfresh w2 (List.mem_cons_of_mem _ hw2) kv hin
      · have hkv2 : kv = (w.id, f w) := by simpa using hin
        subst hkv2
        intro he
        apply hnd.1
        have he2 : w.id = w2.id := he
        rw [he2]
        exact List.mem_map_of_mem _ hw2

/-- recordGet on the per-word record created from a list with distinct ids
returns the value stored for that word. -/
theorem recordGet_map (f : VocabularyWord → Bool) :
    ∀ (ws : List VocabularyWord), (ws.map (fun w => w.id)).Nodup →
      ∀ w ∈ ws,
        recordGet (ws.map (fun w2 => (w2.id, f w2))) w.id = some (f w) := by
  intro ws
  induction ws with
  | nil =>
    intro _ w hw
    cases hw
  | cons w0 ws ih =>
    intro hnodup w hw
    have hnd : w0.id ∉ ws.map (fun w => w.id) ∧
        (ws.map (fun w => w.id)).Nodup := by
      rw [List.map_cons, List.nodup_cons] at hnodup
      exact hnodup
    rcases List.mem_cons.mp hw with rfl | hw2
    · simp [recordGet]
    · have hne : ¬ (w0.id = w.id) := by
        intro he
        apply hnd.1
        rw [he]
        exact List.mem_map_of_mem _ hw2
      have hstep := ih hnd.2 w hw2
      simp only [recordGet] at hstep ⊢
      rw [List.map_cons, List.find?_cons_of_neg _ (by simpa using hne)]
      exact hstep

/-- Claim C6 (amended): submitting the test marks a word correct exactly
when the trimmed selected answer, read as the empty string when the word is
unanswered, is strictly equal to the english field of the word — so an
unanswered word is marked incorrect whenever its english field is
non-empty — and, the word ids being pairwise distinct, the displayed score
is the number of words so marked out of the total word count. -/
theorem test_submit_grading (words : List VocabularyWord)
    (testAnswers : Int → Option (List Char))
    (h : (words.map (fun w => w.id)).Nodup) :
    (∀ w ∈ words,
        recordGet (handleTestSubmit words testAnswers) w.id =
          some (decide (effectiveAnswer testAnswers w.id = w.english))) ∧
    correctCount (handleTestSubmit words testAnswers) =
      (words.filter
        (fun w =>
          decide (effectiveAnswer testAnswers w.id = w.english))).length ∧
    correctCount (handleTestSubmit words testAnswers) ≤ words.length := by
  have hsub : handleTestSubmit words testAnswers =
      words.map (fun w => (w.id,
        decide (effectiveAnswer testAnswers w.id = w.english))) := by
    unfold handleTestSubmit
    rw [foldl_recordSet_eq
      (fun w => decide (effectiveAnswer testAnswers w.id = w.english))
      words [] (by intro w hw kv hkv; cases hkv) h]
    simp
  have hcc : correctCount (handleTestSubmit words testAnswers) =
      (words.filter
        (fun w =>
          decide (effectiveAnswer testAnswers w.id = w.english))).length := by
    rw [hsub]
    unfold correctCount
    rw [List.filter_map, List.length_map]
    congr 1
  refine ⟨?_, hcc, ?_⟩
  · intro w hw
    rw [hsub]
    exact recordGet_map _ words h w hw
  · rw [hcc]
    exact List.length_filter_le _ _

/-- Counterexample to C6 as stated: a single word with an empty english
field and no selected answer is marked correct by the submit handler, while
the claim says an unanswered word counts as incorrect. -/
theorem test_submit_unanswered_marked_correct :
    ¬ (recordGet (handleTestSubmit
        [ { id := 1, arabic := ( "kitab").toList, english := [] } ]
        (fun _ => none)) 1 = some false) := by decide

/-- Witness for the amended C6 at the sample words and answers. -/
theorem test_submit_grading_witness :
    (∀ w ∈ demoWords,
        recordGet (handleTestSubmit demoWords demoAnswers) w.id =
          some (decide (effectiveAnswer demoAnswers w.id = w.english))) ∧
    correctCount (handleTestSubmit demoWords demoAnswers) =
      (demoWords.filter
        (fun w =>
          decide (effectiveAnswer demoAnswers w.id = w.english))).length ∧
    correctCount (handleTestSubmit demoWords demoAnswers) ≤
      demoWords.length :=
  test_submit_grading demoWords demoAnswers (by decide)

/-- A filter whose callback rejects an element without throwing ignores
that element. -/
theorem jsFilterE_cons_false (p : Json → Except Unit Bool) (j : Json)
    (l : List Json) (h : p j = .ok false) :
    jsFilterE p (j :: l) = jsFilterE p l := by
  simp only [jsFilterE, h]
  cases hrest : jsFilterE p l <;> simp

/-- A filter whose callback throws on null aborts on any list containing
null. -/
theorem jsFilterE_null (p : Json → Except Unit Bool)
    (hp : p Json.null = .error ()) :
    ∀ l : List Json, Json.null ∈ l → jsFilterE p l = .error () := by
  intro l
  induction l with
  | nil =>
    intro h
    cases h
  | cons j rest ih =>
    intro h
    rcases List.mem_cons.mp h with he | h2
    · rw [← he]
      simp only [jsFilterE, hp]
    · simp only [jsFilterE]
      cases hj : p j with
      | error e =>
        cases e
        rfl
      | ok b =>
        rw [ih h2]

/-- validateWordPairs aborts on a reply array containing null. -/
theorem validateWordPairs_null (elems : List Json)
    (h : Json.null ∈ elems) : validateWordPairs elems = .error () := by
  unfold validateWordPairs
  rw [jsFilterE_null vocabPairTest rfl elems h]

/-- validateSentences aborts on a reply array containing null. -/
theorem validateSentences_null (elems : List Json)
    (h : Json.null ∈ elems) : validateSentences elems = .error () := by
  unfold validateSentences
  rw [jsFilterE_null convSentenceTest rfl elems h]

/-- Every element of a successful map image comes from a source element via
the callback. -/
theorem jsMapE_mem {α : Type} (f : Json → Except Unit α) :
    ∀ (l : List Json) (out : List α), jsMapE f l = .ok out →
      ∀ a ∈ out, ∃ j ∈ l, f j = .ok a := by
  intro l
  induction l with
  | nil =>
    intro out h a ha
    simp only [jsMapE] at h
    cases h
    cases ha
  | cons j rest ih =>
    intro out h a ha
    simp only [jsMapE] at h
    cases hj : f j with
    | error e =>
      rw [hj] at h
      cases h
    | ok b =>
      rw [hj] at h
      cases hr : jsMapE f rest with
      | error e =>
        rw [hr] at h
        cases h
      | ok tail =>
        rw [hr] at h
        cases h
        rcases List.mem_cons.mp ha with rfl | ha2
        · exact ⟨j, List.mem_cons_self _ _, hj⟩
        · obtain ⟨j2, hj2, hf2⟩ := ih tail hr a ha2
          exact ⟨j2, List.mem_cons_of_mem _ hj2, hf2⟩

/-- A successful toWordPair result has trim-fixed fields. -/
theorem toWordPair_trimmed (q : Json) (p : WordPair)
    (h : toWordPair q = .ok p) :
    jsTrim p.arabic = p.arabic ∧ jsTrim p.english = p.english := by
  unfold toWordPair at h
  cases ha : q.getField arabicField with
  | error e =>
    rw [ha] at h
    cases h
  | ok a =>
    cases he : q.getField englishField with
    | error e =>
      rw [ha, he] at h
      cases h
    | ok e =>
      rw [ha, he] at h
      cases h
      exact ⟨jsTrim_idem _, jsTrim_idem _⟩

/-- A successful toSentenceEntry result has a trim-fixed arabic field. -/
theorem toSentenceEntry_trimmed (q : Json) (s : SentenceEntry)
    (h : toSentenceEntry q = .ok s) : jsTrim s.arabic = s.arabic := by
  unfold toSentenceEntry at h
  cases ha : q.getField arabicField with
  | error e =>
    rw [ha] at h
    cases h
  | ok a =>
    cases he : q.getField englishField with
    | error e =>
      rw [ha, he] at h
      cases h
    | ok e =>
      rw [ha, he] at h
      cases h
      exact jsTrim_idem _

/-- Claim C4 (amended): whenever validation completes without throwing,
every kept vocabulary pair has both fields equal to their trimmed form and
of positive length and every kept sentence has a trimmed non-empty arabic
field; an entry on which the filter callback evaluates to false without
throwing is dropped without affecting the result; but a null array element
makes the field access inside the filter callback throw, so validation
aborts and the handler answers 500 with the parse-failure message and the
raw content rather than dropping the entry. -/
theorem validated_entries_wellformed :
    (∀ (elems : List Json) (pairs : List WordPair),
        validateWordPairs elems = .ok pairs →
        ∀ p ∈ pairs,
          jsTrim p.arabic = p.arabic ∧ 0 < p.arabic.length ∧
          jsTrim p.english = p.english ∧ 0 < p.english.length) ∧
    (∀ (elems : List Json) (entries : List SentenceEntry),
        validateSentences elems = .ok entries →
        ∀ s ∈ entries, jsTrim s.arabic = s.arabic ∧ 0 < s.arabic.length) ∧
    (∀ (j : Json) (elems : List Json),
        vocabPairTest j = .ok false →
        validateWordPairs (j :: elems) = validateWordPairs elems) ∧
    (∀ (j : Json) (elems : List Json),
        convSentenceTest j = .ok false →
        validateSentences (j :: elems) = validateSentences elems) ∧
    (∀ elems : List Json, Json.null ∈ elems →
        validateWordPairs elems = .error () ∧
        validateSentences elems = .error ()) ∧
    (∀ (file : UploadedFile) (sel custom : Option (List Char))
        (ej : Option (Option (List WordPair))) (cfg : OpenRouterConfig)
        (basePrompt content : List Char) (elems : List Json)
        (mf : Option (List Char)),
        cfg.apiKey ≠ [] →
        imageMimePrefixChars.isPrefixOf file.mime = true →
        Json.null ∈ elems →
        (vocabPOST ⟨true, some file, sel, custom, ej, some cfg,
            .httpSuccess content (some (.arr elems)) mf⟩ basePrompt).2 =
          ⟨500, .errorWithRaw vocabParseFailBody content⟩) := by
  refine ⟨?_, ?_, ?_, ?_, ?_, ?_⟩
  · intro elems pairs hval p hp
    unfold validateWordPairs at hval
    cases hf : jsFilterE vocabPairTest elems with
    | error e =>
      simp only [hf] at hval
      cases hval
    | ok kept =>
      simp only [hf] at hval
      cases hm : jsMapE toWordPair kept with
      | error e =>
        simp only [hm] at hval
        cases hval
      | ok mapped =>
        simp only [hm] at hval
        cases hval
        rw [List.mem_filter] at hp
        obtain ⟨hp1, hp2⟩ := hp
        simp only [Bool.and_eq_true, decide_eq_true_eq] at hp2
        obtain ⟨q, hq, hfq⟩ := jsMapE_mem toWordPair kept mapped hm p hp1
        obtain ⟨h1, h2⟩ := toWordPair_trimmed q p hfq
        exact ⟨h1, hp2.1, h2, hp2.2⟩
  · intro elems entries hval s hs
    unfold validateSentences at hval
    cases hf : jsFilterE convSentenceTest elems with
    | error e =>
      simp only [hf] at hval
      cases hval
    | ok kept =>
      simp only [hf] at hval
      cases hm : jsMapE toSentenceEntry kept with
      | error e =>
        simp only [hm] at hval
        cases hval
      | ok mapped =>
        simp only [hm] at hval
        cases hval
        rw [List.mem_filter] at hs
        obtain ⟨hs1, hs2⟩ := hs
        simp only [decide_eq_true_eq] at hs2
        obtain ⟨q, hq, hfq⟩ := jsMapE_mem toSentenceEntry kept mapped hm s hs1
        exact ⟨toSentenceEntry_trimmed q s hfq, hs2⟩
  · intro j elems h
    unfold validateWordPairs
    rw [jsFilterE_cons_false vocabPairTest j elems h]
  · intro j elems h
    unfold validateSentences
    rw [jsFilterE_cons_false convSentenceTest j elems h]
  · intro elems h
    exact ⟨validateWordPairs_null elems h, validateSentences_null elems h⟩
  · intro file sel custom ej cfg basePrompt content elems mf hkey hmime
      hnull
    simp [vocabPOST, hmime, hkey, validateWordPairs_null elems hnull]

/-- Counterexample to C4 as stated: a parsed reply consisting of one null
element is not dropped without error; field access on it throws, the
validation aborts, and the vocabulary handler returns the 500 parse-failure
response instead of a success with the entry dropped. -/
theorem null_entry_causes_error_not_drop :
    ¬ (validateWordPairs [Json.null] = .ok []) ∧
    validateWordPairs [Json.null] = .error () ∧
    (vocabPOST ⟨true, some demoFile, none, none, none, some demoConfig,
        .httpSuccess ( "raw").toList (some (.arr [Json.null])) none⟩
        ( "base").toList).2 =
      ⟨500, .errorWithRaw vocabParseFailBody ( "raw").toList⟩ := by
  refine ⟨?_, rfl, by decide⟩
  intro h
  rw [show validateWordPairs [Json.null] = Except.error () from rfl] at h
  exact Except.noConfusion h

/-- Witness for the amended C4 at the sample parsed reply. -/
theorem validated_entries_wellformed_witness :
    (jsTrim demoPair.arabic = demoPair.arabic ∧
     0 < demoPair.arabic.length ∧
     jsTrim demoPair.english = demoPair.english ∧
     0 < demoPair.english.length) ∧
    validateWordPairs (demoBadEntry :: demoElems) =
      validateWordPairs demoElems :=
  ⟨validated_entries_wellformed.1 demoElems [demoPair] (by decide) demoPair
     (by decide),
   validated_entries_wellformed.2.2.1 demoBadEntry demoElems (by decide)⟩

end ArabicReader
